import Mathlib

/-
Verification of the base-image cache reconciliation engine
(nova/virt/libvirt/imagecache.py) via a shallow embedding.

The filesystem, the instance inventory, the hashing primitive, the disk
introspection helper and the sidecar digest records are external
collaborators of the engine; they are modelled as explicit data
(structure `FS`) threaded through the pure Lean translations of the
engine's methods.  Python dictionaries are modelled as insertion-ordered
association lists, Python sets as duplicate-free lists built by
`set_add`.  All integers are unbounded (`Nat`/`Int`); no machine
arithmetic occurs in the source.
-/

namespace Nova

/-- Modelled from the spec: a DigestRecord sidecar, `{digest, verified_at}`;
`verified_at` is absent for records produced by an older engine version.
(The reader/writer `virtutils.read_stored_info` / `write_stored_info` is
repository code not present in the sources; the spec describes the record
as a digest plus an optional timestamp.) -/
structure Record where
  digest : String
  verified_at : Option Int
deriving DecidableEq, Repr

/-- The external collaborators, as one read-only snapshot: directory
listings, file predicates, mtimes, the hashing primitive's value on each
file, disk introspection, and the sidecar records. -/
structure FS where
  baseDirEntries : List String
  instDirEntries : List String
  isFile : String → Bool
  pathExists : String → Bool
  mtime : String → Int
  fileHash : String → String
  backingFile : String → Option String
  sidecar : String → Option Record

/-- The recognized configuration options (imagecache_opts plus the
imported host / instances_path / base_dir_name options). -/
structure Config where
  remove_unused_base_images : Bool
  remove_unused_resized_minimum_age_seconds : Int
  remove_unused_original_minimum_age_seconds : Int
  checksum_base_images : Bool
  checksum_interval_seconds : Int
  host : String
  instances_path : String
  base_dir_name : String

/-- One row of the instance inventory snapshot. -/
structure Inst where
  name : String
  image_ref : String
  host : String
  task_state : Option String
  vm_state : String
deriving DecidableEq, Repr

/-- Modelled from the spec: the task-state constants named by the source
(`task_states.RESIZE_PREP` etc., a module not present in the sources);
each constant is the lowercase string of its name. -/
def RESIZE_PREP : String := "resize_prep"

def RESIZE_MIGRATING : String := "resize_migrating"

def RESIZE_MIGRATED : String := "resize_migrated"

def RESIZE_FINISH : String := "resize_finish"

/-- Modelled from the spec: `vm_states.RESIZED`. -/
def RESIZED : String := "resized"

/-- hashlib.sha1().digestsize * 2 (imagecache.py line 121). -/
def digest_size : Nat := 20 * 2

/-- os.path.join for the paths the engine builds. -/
def path_join (a b : String) : String := a ++ "/" ++ b

/-- Python dict lookup (first match; keys are unique by construction). -/
def dict_get {β : Type} : List (String × β) → String → Option β
  | [], _ => none
  | (k', v) :: rest, k => if k' = k then some v else dict_get rest k

/-- Python dict assignment: replace in place, else append (insertion
order preserved). -/
def dict_set {β : Type} : List (String × β) → String → β → List (String × β)
  | [], k, v => [(k, v)]
  | (k', v') :: rest, k, v =>
      if k' = k then (k, v) :: rest else (k', v') :: dict_set rest k v

/-- Python set.add on a duplicate-free list. -/
def set_add (l : List String) (x : String) : List String :=
  if x ∈ l then l else l ++ [x]

/-- The per-pass manager state (the fields of `_reset_state`, lines
90-101, without `image_popularity` which no claim touches), extended
with a trace of the pass's effects: every candidate passed to
`_handle_base_image`, the sidecar writes, and the files touched. -/
structure St where
  used_images : List (String × Nat × Nat × List String)
  instance_names : List String
  active_base_files : List String
  corrupt_base_files : List String
  originals : List String
  removable_base_files : List String
  unexplained_images : List String
  processed : List String
  sidecar_writes : List (String × Record)
  touched : List String
deriving DecidableEq, Repr

/-- `_reset_state` (lines 90-101). -/
def reset_state : St :=
  ⟨[], [], [], [], [], [], [], [], [], []⟩

/-- `_store_image` (lines 103-109). -/
def store_image (fs : FS) (base_dir ent : String) (original : Bool) (st : St) : St :=
  let entpath := path_join base_dir ent
  if fs.isFile entpath then
    let st := { st with unexplained_images := st.unexplained_images ++ [entpath] }
    if original then { st with originals := st.originals ++ [entpath] } else st
  else st

/-- The loop body of `_list_base_images` (lines 122-130): the
`if / elif` classification of one directory entry. -/
def scan_step (is_valid_info : String → Bool) (fs : FS) (base_dir : String)
    (st : St) (ent : String) : St :=
  if ent.length = digest_size then
    store_image fs base_dir ent true st
  else if digest_size + 2 < ent.length ∧ ent.toList[digest_size]? = some '_' ∧
      is_valid_info (path_join base_dir ent) = false then
    store_image fs base_dir ent false st
  else st

/-- `_list_base_images` (lines 111-130).  `is_valid_info` stands for
`virtutils.is_valid_info_file`, an external helper (its code is not in
the sources), passed as a parameter. -/
def list_base_images (is_valid_info : String → Bool) (fs : FS) (base_dir : String)
    (st : St) : St :=
  fs.baseDirEntries.foldl (scan_step is_valid_info fs base_dir) st

/-- The resize-state list of `_list_running_instances` (lines 141-144). -/
def resize_states : List String :=
  [RESIZE_PREP, RESIZE_MIGRATING, RESIZE_MIGRATED, RESIZE_FINISH]

/-- `instance['task_state'] in resize_states` (None is in no list). -/
def in_resize_states : Option String → Bool
  | some t => decide (t ∈ resize_states)
  | none => false

/-- The loop body of `_list_running_instances` (lines 138-160, without
the `image_popularity` bookkeeping). -/
def usage_step (cfg : Config) (st : St) (inst : Inst) : St :=
  let st := { st with instance_names := set_add st.instance_names inst.name }
  let st :=
    if in_resize_states inst.task_state = true ∨ inst.vm_state = RESIZED then
      { st with instance_names := set_add st.instance_names (inst.name ++ "_resize") }
    else st
  let prev := (dict_get st.used_images inst.image_ref).getD (0, 0, [])
  let loc := if inst.host = cfg.host then prev.1 + 1 else prev.1
  let rem := if inst.host = cfg.host then prev.2.1 else prev.2.1 + 1
  { st with used_images :=
      dict_set st.used_images inst.image_ref (loc, rem, prev.2.2 ++ [inst.name]) }

/-- `_list_running_instances` (lines 132-160). -/
def list_running_instances (cfg : Config) (st : St) (all_instances : List Inst) : St :=
  let st := { st with used_images := [], instance_names := [] }
  all_instances.foldl (usage_step cfg) st

/-- Output of `_verify_checksum`: the returned value (`True`, `False` or
`None`), the sidecar records written, and whether the file's digest was
recomputed (`utils.hash_file` called). -/
structure VerifyOut where
  result : Option Bool
  writes : List (String × Record)
  hashed : Bool
deriving DecidableEq, Repr

/-- `_verify_checksum` (lines 222-287).  `read_stored_checksum` is the
sidecar lookup `fs.sidecar`; `write_stored_info` writes the given digest
with a current timestamp (modelled from the spec, see `Record`).  The
cross-host lock around the body serializes access but does not change
the sequential result modelled here. -/
def verify_checksum (cfg : Config) (fs : FS) (now : Int) (base_file : String)
    (create_if_missing : Bool) : VerifyOut :=
  if cfg.checksum_base_images = false then ⟨none, [], false⟩
  else
    match fs.sidecar base_file with
    | some rec =>
        match rec.verified_at with
        | some ts =>
            if now - ts < cfg.checksum_interval_seconds then ⟨some true, [], false⟩
            else
              if fs.fileHash base_file ≠ rec.digest then ⟨some false, [], true⟩
              else ⟨some true, [], true⟩
        | none =>
            -- no timestamp: rewrite the record with the stored digest and
            -- a timestamp now (lines 251-255), then still re-hash
            let ws := [(base_file, ⟨rec.digest, some now⟩)]
            if fs.fileHash base_file ≠ rec.digest then ⟨some false, ws, true⟩
            else ⟨some true, ws, true⟩
    | none =>
        if cfg.checksum_base_images = true ∧ create_if_missing = true then
          ⟨none, [(base_file, ⟨fs.fileHash base_file, some now⟩)], true⟩
        else ⟨none, [], false⟩

/-- `_remove_base_file` (lines 289-320): returns whether the file is
removed (old enough and present). -/
def remove_base_file (cfg : Config) (fs : FS) (now : Int) (originals : List String)
    (base_file : String) : Bool :=
  if fs.pathExists base_file = false then false
  else
    let age := now - fs.mtime base_file
    let maxage := if base_file ∈ originals then
        cfg.remove_unused_original_minimum_age_seconds
      else cfg.remove_unused_resized_minimum_age_seconds
    if age < maxage then false else true

/-- Lines 335-341: the checksum is only verified for a non-empty,
existing, regular candidate path; `_verify_checksum` returns `None`
otherwise as well (checksumming disabled), collapsed here into one
guard. -/
def handle_checksum (cfg : Config) (fs : FS) (now : Int) (base_file : String) : VerifyOut :=
  if base_file ≠ "" ∧ fs.pathExists base_file = true ∧ fs.isFile base_file = true then
    verify_checksum cfg fs now base_file true
  else ⟨none, [], false⟩

/-- Lines 340-341: `image_bad = not checksum_result` unless the result
was `None`. -/
def image_bad_of (cs : VerifyOut) : Bool :=
  match cs.result with
  | some b => !b
  | none => false

/-- Lines 346-351: the image is in use when its usage entry exists with
a positive local or remote count. -/
def image_in_use_of (used : List (String × Nat × Nat × List String))
    (img_id : String) : Bool :=
  match dict_get used img_id with
  | some (loc, rem, _) => decide (0 < loc) || decide (0 < rem)
  | none => false

/-- `_handle_base_image` (lines 322-389).  The source performs the
appends sequentially on distinct fields; they are collected into one
record update here.  The trace fields record the handled candidate, the
sidecar writes, and the mtime/ownership refresh (`chown` + `os.utime`,
lines 387-389). -/
def handle_base_image (cfg : Config) (fs : FS) (now : Int) (img_id base_file : String)
    (st : St) : St :=
  let cs := handle_checksum cfg fs now base_file
  let image_bad : Bool := image_bad_of cs
  let image_in_use : Bool := image_in_use_of st.used_images img_id
  { st with
    unexplained_images := st.unexplained_images.erase base_file,
    processed := st.processed ++ [base_file],
    sidecar_writes := st.sidecar_writes ++ cs.writes,
    active_base_files :=
      if image_in_use then st.active_base_files ++ [base_file]
      else st.active_base_files,
    corrupt_base_files :=
      if image_bad then st.corrupt_base_files ++ [base_file]
      else st.corrupt_base_files,
    removable_base_files :=
      if base_file ≠ "" ∧ image_in_use = false then
        st.removable_base_files ++ [base_file]
      else st.removable_base_files,
    touched :=
      if base_file ≠ "" ∧ image_in_use = true ∧ fs.pathExists base_file = true then
        st.touched ++ [base_file]
      else st.touched }

/-- The regular expression `.*/<fingerprint>_[0-9]+$` of
`_find_base_file` (line 216): the path ends in a non-empty run of
digits, and what precedes that run ends in `/<fingerprint>_`.  (Since
the character before the digit run in the pattern is the literal `_`,
the `[0-9]+` group always matches the whole trailing digit run.) -/
def resize_match (fingerprint img : String) : Bool :=
  let rev := img.toList.reverse
  (rev.takeWhile Char.isDigit ≠ []) &&
    ("/" ++ fingerprint ++ "_").toList.isSuffixOf
      ((rev.dropWhile Char.isDigit).reverse)

/-- The resized-image part of the `_find_base_file` generator (lines
215-220) fused with its consumer (lines 421-426): a Python `for` over
`self.unexplained_images` is an index-based iterator over a list that
`_handle_base_image` mutates, so the loop is modelled by an explicit
index `i` into the current list.  The fuel `g` only bounds the
recursion; `process_resized_eq` below proves that with the fuel the
caller supplies the loop satisfies exactly the iterator's step
equation, so the cutoff is never hit. -/
def process_resized (cfg : Config) (fs : FS) (now : Int) (img_id fingerprint : String) :
    Nat → Nat → St → St
  | 0, _, st => st
  | g + 1, i, st =>
      match st.unexplained_images[i]? with
      | none => st
      | some img =>
          if resize_match fingerprint img then
            process_resized cfg fs now img_id fingerprint g (i + 1)
              (handle_base_image cfg fs now img_id img st)
          else process_resized cfg fs now img_id fingerprint g (i + 1) st

/-- One iteration of the loop over `self.used_images` (lines 416-426):
the `_find_base_file` generator (lines 195-220) fused with the
per-candidate handling, in yield order — the original, then the `_sm`
legacy name, then the resized images.  After handling a candidate that
is neither small nor resized, it is recorded in `originals` (lines
425-426). -/
def find_and_handle (cfg : Config) (fs : FS) (now : Int) (base_dir img_id fingerprint : String)
    (st : St) : St :=
  let base_file := path_join base_dir fingerprint
  let st :=
    if fs.pathExists base_file = true then
      let st := handle_base_image cfg fs now img_id base_file st
      { st with originals := st.originals ++ [base_file] }
    else st
  let base_sm := path_join base_dir (fingerprint ++ "_sm")
  let st :=
    if fs.pathExists base_sm = true then handle_base_image cfg fs now img_id base_sm st
    else st
  process_resized cfg fs now img_id fingerprint st.unexplained_images.length 0 st

/-- The loop over `self.used_images` of `verify_base_images` (lines
416-426).  The handlers never touch `used_images`, so folding over the
snapshot of the association list matches the Python iteration. -/
def candidate_phase (cfg : Config) (fs : FS) (now : Int) (sha1hex : String → String)
    (base_dir : String) (st : St) : St :=
  st.used_images.foldl
    (fun st kv => find_and_handle cfg fs now base_dir kv.1 (sha1hex kv.1) st) st

/-- The loop body of `_list_backing_images` (lines 165-191), carrying
the `inuse_images` accumulator alongside the manager state. -/
def backing_step (cfg : Config) (fs : FS) (acc : List String × St) (ent : String) :
    List String × St :=
  if ent ∈ acc.2.instance_names then
    let disk_path := path_join (path_join cfg.instances_path ent) "disk"
    if fs.pathExists disk_path = true then
      match fs.backingFile disk_path with
      | some backing =>
          if backing ≠ "" then
            let backing_path :=
              path_join (path_join cfg.instances_path cfg.base_dir_name) backing
            let inuse :=
              if backing_path ∈ acc.1 then acc.1 else acc.1 ++ [backing_path]
            let st :=
              if backing_path ∈ acc.2.unexplained_images then
                { acc.2 with unexplained_images :=
                    acc.2.unexplained_images.erase backing_path }
              else acc.2
            (inuse, st)
          else acc
      | none => acc
    else acc
  else acc

/-- `_list_backing_images` (lines 162-193).  `fs.backingFile` stands for
`virtutils.get_disk_backing_file`; a `None` or empty name is falsy. -/
def list_backing_images (cfg : Config) (fs : FS) (st : St) : List String × St :=
  fs.instDirEntries.foldl (backing_step cfg fs) ([], st)

/-- Lines 430-432: fold every in-use backing image into the active set
unless already present. -/
def add_active (st : St) (p : String) : St :=
  if p ∈ st.active_base_files then st
  else { st with active_base_files := st.active_base_files ++ [p] }

/-- The result of one reconciliation pass: the final manager state, the
working set as it stood right after the directory scan, the backing
images found in use, and the files the reclamation step removes. -/
structure PassResult where
  st : St
  scanned_unexplained : List String
  inuse_backing_images : List String
  deleted : List String
  ran : Bool
deriving DecidableEq, Repr

/-- Line 405: the shared base directory. -/
def pass_base_dir (cfg : Config) : String :=
  path_join cfg.instances_path cfg.base_dir_name

/-- Line 412: the manager state after the directory scan (starting from
the reset of line 403). -/
def pass_scan (cfg : Config) (fs : FS) (ivi : String → Bool) : St :=
  list_base_images ivi fs (pass_base_dir cfg) reset_state

/-- Line 413: the state after the usage collection. -/
def pass_usage (cfg : Config) (fs : FS) (ivi : String → Bool)
    (insts : List Inst) : St :=
  list_running_instances cfg (pass_scan cfg fs ivi) insts

/-- Lines 416-426: the state after the candidate loop. -/
def pass_candidates (cfg : Config) (fs : FS) (now : Int) (sha1hex : String → String)
    (ivi : String → Bool) (insts : List Inst) : St :=
  candidate_phase cfg fs now sha1hex (pass_base_dir cfg)
    (pass_usage cfg fs ivi insts)

/-- Line 429: the backing-chain resolution. -/
def pass_backing (cfg : Config) (fs : FS) (now : Int) (sha1hex : String → String)
    (ivi : String → Bool) (insts : List Inst) : List String × St :=
  list_backing_images cfg fs (pass_candidates cfg fs now sha1hex ivi insts)

/-- Lines 430-432: backing hits folded into the active set. -/
def pass_active (cfg : Config) (fs : FS) (now : Int) (sha1hex : String → String)
    (ivi : String → Bool) (insts : List Inst) : St :=
  (pass_backing cfg fs now sha1hex ivi insts).1.foldl add_active
    (pass_backing cfg fs now sha1hex ivi insts).2

/-- Lines 434-437: the leftover unexplained images become removable. -/
def pass_final (cfg : Config) (fs : FS) (now : Int) (sha1hex : String → String)
    (ivi : String → Bool) (insts : List Inst) : St :=
  { pass_active cfg fs now sha1hex ivi insts with removable_base_files :=
      (pass_active cfg fs now sha1hex ivi insts).removable_base_files ++
        (pass_active cfg fs now sha1hex ivi insts).unexplained_images }

/-- Lines 447-453: the files the reclamation step removes. -/
def pass_deleted (cfg : Config) (fs : FS) (now : Int) (sha1hex : String → String)
    (ivi : String → Bool) (insts : List Inst) : List String :=
  if (!(pass_final cfg fs now sha1hex ivi insts).removable_base_files.isEmpty &&
      cfg.remove_unused_base_images) = true then
    (pass_final cfg fs now sha1hex ivi insts).removable_base_files.filter
      (remove_base_file cfg fs now (pass_final cfg fs now sha1hex ivi insts).originals)
  else []

/-- The pass body (lines 403-457), phase by phase. -/
def pass_body (cfg : Config) (fs : FS) (now : Int) (sha1hex : String → String)
    (ivi : String → Bool) (insts : List Inst) : PassResult :=
  ⟨pass_final cfg fs now sha1hex ivi insts,
   (pass_scan cfg fs ivi).unexplained_images,
   (pass_backing cfg fs now sha1hex ivi insts).1,
   pass_deleted cfg fs now sha1hex ivi insts, true⟩

/-- `verify_base_images` (lines 391-457), the sole entry point.
`sha1hex` is the hashing primitive applied to the identifier's string
form (line 417); `is_valid_info` is `virtutils.is_valid_info_file`.
`mgr` is the manager state left over from any previous pass; the method
begins with `_reset_state` (line 403), so it is discarded.  The loop
over `self.used_images` follows the association list's insertion
order. -/
def verify_base_images (cfg : Config) (fs : FS) (now : Int)
    (sha1hex : String → String) (is_valid_info : String → Bool)
    (mgr : St) (all_instances : List Inst) : PassResult :=
  if fs.pathExists (pass_base_dir cfg) = false then ⟨reset_state, [], [], [], false⟩
  else pass_body cfg fs now sha1hex is_valid_info all_instances

/- ### Association-list and set helpers -/

/-- The keys of a Python-dict model are unique. -/
def keys_nodup {β : Type} (l : List (String × β)) : Prop :=
  (l.map Prod.fst).Nodup

/- ### Usage collector lemmas -/

/-- The invariant of C10: every usage entry's counters sum to the length
of its instance list, and that sum is at least one. -/
def usage_ok (U : List (String × Nat × Nat × List String)) : Prop :=
  ∀ k loc rem ins, (k, loc, rem, ins) ∈ U → loc + rem = ins.length ∧ 1 ≤ loc + rem

/-- What one inventory row contributes to the expected-names set (the
loop body, lines 138-147): its own name always, and the `_resize` shadow
name exactly when the row is in a resize task state or its vm_state is
`resized`. -/
def contributes (inst : Inst) (s : String) : Prop :=
  s = inst.name ∨ (s = inst.name ++ "_resize" ∧
    (in_resize_states inst.task_state = true ∨ inst.vm_state = RESIZED))

/- ### Scanner lemmas -/

/-- The original-candidate classification as the code has it (line 123):
the entry name has exactly the digest length. -/
def scan_original (ent : String) : Bool :=
  decide (ent.length = digest_size)

/-- The derived-candidate classification as the code has it (lines
126-129): the name is strictly longer than digest-length + 2, has the
separator at the digest-length position, and is not a valid info
file. -/
def scan_derived (is_valid_info : String → Bool) (base_dir ent : String) : Bool :=
  decide (digest_size + 2 < ent.length) &&
    decide (ent.toList[digest_size]? = some '_') &&
    !(is_valid_info (path_join base_dir ent))

/-- An entry is stored in the unexplained working set exactly when one
of the two classifications holds and the joined path is a regular
file. -/
def scan_keep (is_valid_info : String → Bool) (fs : FS) (base_dir ent : String) : Bool :=
  (scan_original ent || scan_derived is_valid_info base_dir ent) &&
    fs.isFile (path_join base_dir ent)

/- ### Candidate-loop invariants -/

/-- Invariant used for C7 and C8: the working set stays duplicate-free,
contains exactly the scanned paths not yet handled, and every
corrupt-flagged path has been handled. -/
def Inv78 (scanned : List String) (st : St) : Prop :=
  st.unexplained_images.Nodup ∧
  (∀ p, p ∈ st.unexplained_images ↔ (p ∈ scanned ∧ p ∉ st.processed)) ∧
  (∀ f, f ∈ st.corrupt_base_files → f ∈ st.processed)

/-- Invariant used for C10 (and C7): the usage map never changes during
the candidate loop, the not-in-use branch never fires (so the removable
list stays empty), and every handled candidate has been marked
active. -/
def Inv10 (U : List (String × Nat × Nat × List String)) (st : St) : Prop :=
  st.used_images = U ∧ st.removable_base_files = [] ∧
  (∀ p, p ∈ st.processed → p ∈ st.active_base_files)

/- ### Concrete fixtures -/

/-- A neutral filesystem snapshot for the concrete scenarios. -/
def fs_base : FS :=
  ⟨[], [], fun _ => true, fun _ => true, fun _ => 0, fun _ => "h",
   fun _ => none, fun _ => none⟩

/-- A 40-character fingerprint (the sha1 hex length). -/
def fp40 : String := String.mk (List.replicate 40 'a')

def fp40b : String := String.mk (List.replicate 40 'b')

def fp40c : String := String.mk (List.replicate 40 'c')

/-- Checksumming disabled, reclamation enabled. -/
def cfg_main : Config := ⟨true, 3600, 86400, false, 3600, "h", "ip", "bb"⟩

/-- Checksumming enabled, reclamation enabled. -/
def cfg_ck : Config := ⟨true, 3600, 86400, true, 3600, "h", "ip", "bb"⟩

/-- An instance on the local host using image `img`, not resizing. -/
def instT : Inst := ⟨"i1", "img", "h", none, "active"⟩

/-- C1 scenario: two resized variants of the in-use fingerprint are on
disk, no original and no `_sm` file. -/
def fsC1 : FS :=
  { fs_base with
    baseDirEntries := [fp40 ++ "_10", fp40 ++ "_20"],
    pathExists := fun p => !(p == path_join "ip/bb" fp40) &&
      !(p == path_join "ip/bb" (fp40 ++ "_sm")) }

/-- C2 scenario: an entry exactly digest-length + 2 long with the
separator at the digest position. -/
def entC2 : String := fp40 ++ "_1"

def fsC2 : FS := { fs_base with baseDirEntries := [entC2] }

/-- C3 scenario: an instance in the `resize_finish` task state. -/
def instC3 : Inst := ⟨"i1", "img", "h", some RESIZE_FINISH, "active"⟩

/-- C4 scenario: a record with a digest and no timestamp, and a file
whose fresh digest mismatches it. -/
def fsC4 : FS :=
  { fs_base with
    sidecar := fun p => if p = "f" then some ⟨"d", none⟩ else none,
    fileHash := fun _ => "x" }

/-- C5 scenario: a record stamped at time 0 whose digest matches the
file. -/
def fsC5 : FS :=
  { fs_base with sidecar := fun p => if p = "f" then some ⟨"h", some 100⟩ else none }

/-- C7 scenario: the in-use original is corrupt (stale record, digest
mismatch). -/
def fsC7 : FS :=
  { fs_base with
    baseDirEntries := [fp40],
    sidecar := fun p => if p = path_join "ip/bb" fp40 then
        some ⟨"good", some 100⟩ else none,
    fileHash := fun _ => "bad" }

/-- C8 scenario: one unknown derived-shaped file and one original-shaped
file referenced only through the instance's backing chain. -/
def unkC8 : String := fp40b ++ "_99"

def fsC8 : FS :=
  { fs_base with
    baseDirEntries := [unkC8, fp40c],
    instDirEntries := ["i1"],
    backingFile := fun p => if p = "ip/i1/disk" then some fp40c else none,
    pathExists := fun p => !(p == path_join "ip/bb" fp40) &&
      !(p == path_join "ip/bb" (fp40 ++ "_sm")) }

/-- C10 scenario: the in-use original alone in the cache. -/
def fsC10 : FS :=
  { fs_base with
    baseDirEntries := [fp40],
    pathExists := fun p => !(p == path_join "ip/bb" (fp40 ++ "_sm")) }

theorem dict_get_mem {β : Type} {l : List (String × β)} {k : String} {v : β}
    (h : dict_get l k = some v) : (k, v) ∈ l := by
  induction l with
  | nil => simp [dict_get] at h
  | cons a rest ih =>
      obtain ⟨k', v'⟩ := a
      by_cases hk : k' = k
      · subst hk
        simp [dict_get] at h
        simp [h]
      · simp [dict_get, hk] at h
        exact List.mem_cons_of_mem _ (ih h)

theorem dict_get_of_mem {β : Type} {l : List (String × β)} {k : String} {v : β}
    (hn : keys_nodup l) (h : (k, v) ∈ l) : dict_get l k = some v := by
  induction l with
  | nil => simp at h
  | cons a rest ih =>
      obtain ⟨k', v'⟩ := a
      simp [keys_nodup] at hn
      rcases List.mem_cons.mp h with h1 | h1
      · obtain ⟨hk, hv⟩ := Prod.mk.injEq .. ▸ h1
        simp [dict_get, hk.symm, hv]
      · have hkk : k' ≠ k := by
          intro he
          exact hn.1 v (he ▸ h1)
        simp [dict_get, hkk]
        exact ih hn.2 h1

theorem mem_dict_set {β : Type} {l : List (String × β)} {k : String} {v : β} {x : String × β}
    (h : x ∈ dict_set l k v) : x = (k, v) ∨ x ∈ l := by
  induction l with
  | nil => simp [dict_set] at h; simp [h]
  | cons a rest ih =>
      obtain ⟨k', v'⟩ := a
      by_cases hk : k' = k
      · simp [dict_set, hk] at h
        rcases h with h | h
        · exact Or.inl h
        · exact Or.inr (List.mem_cons_of_mem _ h)
      · simp [dict_set, hk] at h
        rcases h with h | h
        · exact Or.inr (List.mem_cons.mpr (Or.inl (by simp [h])))
        · rcases ih h with h1 | h1
          · exact Or.inl h1
          · exact Or.inr (List.mem_cons_of_mem _ h1)

theorem keys_dict_set {β : Type} (l : List (String × β)) (k : String) (v : β) :
    (dict_set l k v).map Prod.fst =
      if k ∈ l.map Prod.fst then l.map Prod.fst else l.map Prod.fst ++ [k] := by
  induction l with
  | nil => simp [dict_set]
  | cons p rest ih =>
      obtain ⟨k', v'⟩ := p
      by_cases hk : k' = k
      · subst hk
        simp [dict_set]
      · simp [dict_set, hk, ih]
        by_cases hm : k ∈ rest.map Prod.fst
        · simp [hm, Ne.symm hk]
        · simp [hm, Ne.symm hk]

theorem keys_nodup_dict_set {β : Type} {l : List (String × β)} {k : String} {v : β}
    (hn : keys_nodup l) : keys_nodup (dict_set l k v) := by
  unfold keys_nodup at hn ⊢
  rw [keys_dict_set]
  by_cases hm : k ∈ l.map Prod.fst
  · simpa [hm] using hn
  · simp [hm, List.nodup_append, hn]

theorem mem_set_add {l : List String} {a x : String} :
    x ∈ set_add l a ↔ x = a ∨ x ∈ l := by
  unfold set_add
  by_cases h : a ∈ l
  · simp [h]
    intro he
    exact he ▸ h
  · simp [h, or_comm]

theorem foldl_preserve {α β : Type} (P : β → Prop) (f : β → α → β) :
    ∀ (l : List α), (∀ b x, x ∈ l → P b → P (f b x)) → ∀ b, P b → P (l.foldl f b)
  | [], _, _, hb => hb
  | x :: rest, h, b, hb =>
      foldl_preserve P f rest (fun b y hy => h b y (List.mem_cons_of_mem _ hy))
        (f b x) (h b x (List.mem_cons_self x rest) hb)

theorem usage_step_used (cfg : Config) (inst : Inst) (st : St) :
    (usage_step cfg st inst).used_images =
      dict_set st.used_images inst.image_ref
        ((if inst.host = cfg.host then
            ((dict_get st.used_images inst.image_ref).getD (0, 0, [])).1 + 1
          else ((dict_get st.used_images inst.image_ref).getD (0, 0, [])).1),
         (if inst.host = cfg.host then
            ((dict_get st.used_images inst.image_ref).getD (0, 0, [])).2.1
          else ((dict_get st.used_images inst.image_ref).getD (0, 0, [])).2.1 + 1),
         ((dict_get st.used_images inst.image_ref).getD (0, 0, [])).2.2 ++ [inst.name]) := by
  simp only [usage_step]
  split <;> rfl

theorem usage_step_names (cfg : Config) (inst : Inst) (st : St) :
    (usage_step cfg st inst).instance_names =
      if in_resize_states inst.task_state = true ∨ inst.vm_state = RESIZED then
        set_add (set_add st.instance_names inst.name) (inst.name ++ "_resize")
      else set_add st.instance_names inst.name := by
  simp only [usage_step]
  split <;> rfl

theorem usage_step_ok (cfg : Config) (inst : Inst) (st : St)
    (h : usage_ok st.used_images) : usage_ok (usage_step cfg st inst).used_images := by
  rw [usage_step_used]
  intro k loc rem ins hm
  rcases mem_dict_set hm with h1 | h1
  · rcases he : dict_get st.used_images inst.image_ref with _ | prev
    · rw [he] at h1
      by_cases hh : inst.host = cfg.host
      · simp [hh] at h1
        obtain ⟨-, h2, h3, h4⟩ := h1
        subst h2; subst h3; subst h4
        simp
      · simp [hh] at h1
        obtain ⟨-, h2, h3, h4⟩ := h1
        subst h2; subst h3; subst h4
        simp
    · obtain ⟨l0, r0, ins0⟩ := prev
      have hp := h _ _ _ _ (dict_get_mem he)
      rw [he] at h1
      by_cases hh : inst.host = cfg.host
      · simp [hh] at h1
        obtain ⟨-, h2, h3, h4⟩ := h1
        subst h2; subst h3; subst h4
        simp
        omega
      · simp [hh] at h1
        obtain ⟨-, h2, h3, h4⟩ := h1
        subst h2; subst h3; subst h4
        simp
        omega
  · exact h _ _ _ _ h1

theorem running_usage_ok (cfg : Config) (st : St) (insts : List Inst) :
    usage_ok (list_running_instances cfg st insts).used_images := by
  unfold list_running_instances
  refine foldl_preserve (fun s => usage_ok s.used_images) _ _
    (fun s i _ hi => usage_step_ok cfg i s hi) _ ?_
  intro k loc rem ins hm
  simp at hm

theorem usage_step_keys (cfg : Config) (inst : Inst) (st : St)
    (h : keys_nodup st.used_images) : keys_nodup (usage_step cfg st inst).used_images := by
  rw [usage_step_used]
  exact keys_nodup_dict_set h

theorem running_keys_nodup (cfg : Config) (st : St) (insts : List Inst) :
    keys_nodup (list_running_instances cfg st insts).used_images := by
  unfold list_running_instances
  refine foldl_preserve (fun s => keys_nodup s.used_images) _ _
    (fun s i _ hi => usage_step_keys cfg i s hi) _ ?_
  simp [keys_nodup]

theorem usage_step_mem_names (cfg : Config) (inst : Inst) (st : St) (s : String) :
    s ∈ (usage_step cfg st inst).instance_names ↔
      s ∈ st.instance_names ∨ contributes inst s := by
  rw [usage_step_names]
  by_cases hc : in_resize_states inst.task_state = true ∨ inst.vm_state = RESIZED
  · simp only [hc, if_pos, mem_set_add, contributes]
    tauto
  · simp only [hc, if_neg, mem_set_add, contributes, if_false]
    tauto

theorem foldl_usage_mem_names (cfg : Config) :
    ∀ (insts : List Inst) (st : St) (s : String),
      s ∈ (insts.foldl (usage_step cfg) st).instance_names ↔
        s ∈ st.instance_names ∨ ∃ i ∈ insts, contributes i s := by
  intro insts
  induction insts with
  | nil => simp
  | cons i rest ih =>
      intro st s
      rw [List.foldl_cons, ih, usage_step_mem_names]
      simp only [List.mem_cons]
      constructor
      · rintro ((h | h) | ⟨j, hj, hc⟩)
        · exact Or.inl h
        · exact Or.inr ⟨i, Or.inl rfl, h⟩
        · exact Or.inr ⟨j, Or.inr hj, hc⟩
      · rintro (h | ⟨j, (rfl | hj), hc⟩)
        · exact Or.inl (Or.inl h)
        · exact Or.inl (Or.inr hc)
        · exact Or.inr ⟨j, hj, hc⟩

theorem mem_instance_names (cfg : Config) (st : St) (insts : List Inst) (s : String) :
    s ∈ (list_running_instances cfg st insts).instance_names ↔
      ∃ i ∈ insts, contributes i s := by
  unfold list_running_instances
  rw [foldl_usage_mem_names]
  simp

/- ### Handler lemmas -/

theorem handle_unexplained (cfg : Config) (fs : FS) (now : Int) (img_id b : String)
    (st : St) : (handle_base_image cfg fs now img_id b st).unexplained_images =
      st.unexplained_images.erase b := rfl

theorem handle_processed (cfg : Config) (fs : FS) (now : Int) (img_id b : String)
    (st : St) : (handle_base_image cfg fs now img_id b st).processed =
      st.processed ++ [b] := rfl

theorem handle_used (cfg : Config) (fs : FS) (now : Int) (img_id b : String)
    (st : St) : (handle_base_image cfg fs now img_id b st).used_images =
      st.used_images := rfl

theorem handle_names (cfg : Config) (fs : FS) (now : Int) (img_id b : String)
    (st : St) : (handle_base_image cfg fs now img_id b st).instance_names =
      st.instance_names := rfl

theorem handle_originals (cfg : Config) (fs : FS) (now : Int) (img_id b : String)
    (st : St) : (handle_base_image cfg fs now img_id b st).originals =
      st.originals := rfl

theorem handle_corrupt_cases (cfg : Config) (fs : FS) (now : Int) (img_id b : String)
    (st : St) :
    (handle_base_image cfg fs now img_id b st).corrupt_base_files = st.corrupt_base_files ∨
    (handle_base_image cfg fs now img_id b st).corrupt_base_files =
      st.corrupt_base_files ++ [b] := by
  simp only [handle_base_image]
  split
  · exact Or.inr rfl
  · exact Or.inl rfl

theorem handle_active_cases (cfg : Config) (fs : FS) (now : Int) (img_id b : String)
    (st : St) :
    (handle_base_image cfg fs now img_id b st).active_base_files = st.active_base_files ∨
    (handle_base_image cfg fs now img_id b st).active_base_files =
      st.active_base_files ++ [b] := by
  simp only [handle_base_image]
  split
  · exact Or.inr rfl
  · exact Or.inl rfl

theorem handle_removable_cases (cfg : Config) (fs : FS) (now : Int) (img_id b : String)
    (st : St) :
    (handle_base_image cfg fs now img_id b st).removable_base_files =
      st.removable_base_files ∨
    (handle_base_image cfg fs now img_id b st).removable_base_files =
      st.removable_base_files ++ [b] := by
  simp only [handle_base_image]
  split
  · exact Or.inr rfl
  · exact Or.inl rfl

/-- When the handled identifier has a usage entry with a positive count,
the candidate is classified active and the not-in-use branch (the
removable append) is not taken (lines 346-389). -/
theorem handle_in_use (cfg : Config) (fs : FS) (now : Int) (img_id b : String)
    (st : St) (loc rem : Nat) (ins : List String)
    (hget : dict_get st.used_images img_id = some (loc, rem, ins))
    (hsum : 0 < loc + rem) :
    (handle_base_image cfg fs now img_id b st).active_base_files =
      st.active_base_files ++ [b] ∧
    (handle_base_image cfg fs now img_id b st).removable_base_files =
      st.removable_base_files := by
  have hu : image_in_use_of st.used_images img_id = true := by
    rw [image_in_use_of, hget]
    simp only [Bool.or_eq_true, decide_eq_true_eq]
    omega
  constructor
  · simp only [handle_base_image, hu, if_pos]
  · simp only [handle_base_image, hu]
    simp

/- ### The resized-candidate loop: fuel adequacy -/

theorem process_resized_fuel_succ (cfg : Config) (fs : FS) (now : Int)
    (img_id fp : String) :
    ∀ (g i : Nat) (st : St), st.unexplained_images.length ≤ g + i →
      process_resized cfg fs now img_id fp (g + 1) i st =
        process_resized cfg fs now img_id fp g i st := by
  intro g
  induction g with
  | zero =>
      intro i st h
      simp only [Nat.zero_add] at h
      simp [process_resized, List.getElem?_eq_none h]
  | succ g ih =>
      intro i st h
      rcases he : st.unexplained_images[i]? with _ | img
      · simp [process_resized, he]
      · have hi : i < st.unexplained_images.length := by
          by_contra hc
          rw [List.getElem?_eq_none (by omega)] at he
          exact Option.noConfusion he
        simp only [process_resized, he]
        by_cases hm : resize_match fp img = true
        · rw [if_pos hm, if_pos hm]
          apply ih
          rw [handle_unexplained,
            List.length_erase_of_mem (List.getElem?_mem he)]
          omega
        · rw [if_neg hm, if_neg hm]
          apply ih
          omega

/-- The fuel-bounded loop satisfies the Python iterator's step equation
whenever the fuel dominates the distance from the index to the end of
the current list — which holds at the call site, where the fuel is the
list's length and the index zero, and is maintained because each step
advances the index and removes at most one element. -/
theorem process_resized_eq (cfg : Config) (fs : FS) (now : Int) (img_id fp : String)
    (g i : Nat) (st : St) (h : st.unexplained_images.length ≤ g + i) :
    process_resized cfg fs now img_id fp g i st =
      match st.unexplained_images[i]? with
      | none => st
      | some img =>
          if resize_match fp img then
            process_resized cfg fs now img_id fp g (i + 1)
              (handle_base_image cfg fs now img_id img st)
          else process_resized cfg fs now img_id fp g (i + 1) st := by
  rcases g with _ | g
  · simp only [Nat.zero_add] at h
    simp [process_resized, List.getElem?_eq_none h]
  · rcases he : st.unexplained_images[i]? with _ | img
    · simp [process_resized, he]
    · have hi : i < st.unexplained_images.length := by
        by_contra hc
        rw [List.getElem?_eq_none (by omega)] at he
        exact Option.noConfusion he
      simp only [process_resized, he]
      by_cases hm : resize_match fp img = true
      · rw [if_pos hm, if_pos hm]
        apply (process_resized_fuel_succ cfg fs now img_id fp g (i + 1) _ ?_).symm
        rw [handle_unexplained,
          List.length_erase_of_mem (List.getElem?_mem he)]
        omega
      · rw [if_neg hm, if_neg hm]
        apply (process_resized_fuel_succ cfg fs now img_id fp g (i + 1) _ ?_).symm
        omega

theorem process_resized_preserve (cfg : Config) (fs : FS) (now : Int)
    (img_id fp : String) (P : St → Prop)
    (hP : ∀ b st, P st → P (handle_base_image cfg fs now img_id b st)) :
    ∀ (g i : Nat) (st : St), P st → P (process_resized cfg fs now img_id fp g i st) := by
  intro g
  induction g with
  | zero => intro i st h; exact h
  | succ g ih =>
      intro i st h
      rcases he : st.unexplained_images[i]? with _ | img
      · simpa [process_resized, he] using h
      · simp only [process_resized, he]
        by_cases hm : resize_match fp img = true
        · rw [if_pos hm]
          exact ih _ _ (hP _ _ h)
        · rw [if_neg hm]
          exact ih _ _ h

theorem find_and_handle_preserve (cfg : Config) (fs : FS) (now : Int)
    (base_dir img_id fp : String) (P : St → Prop)
    (hP : ∀ b st, P st → P (handle_base_image cfg fs now img_id b st))
    (hO : ∀ st, P st → P { st with originals := st.originals ++ [path_join base_dir fp] }) :
    ∀ (st : St), P st → P (find_and_handle cfg fs now base_dir img_id fp st) := by
  intro st h
  unfold find_and_handle
  apply process_resized_preserve cfg fs now img_id fp P hP
  by_cases h2 : fs.pathExists (path_join base_dir (fp ++ "_sm")) = true
  · rw [if_pos h2]
    apply hP
    by_cases h1 : fs.pathExists (path_join base_dir fp) = true
    · rw [if_pos h1]
      exact hO _ (hP _ _ h)
    · rw [if_neg h1]
      exact h
  · rw [if_neg h2]
    by_cases h1 : fs.pathExists (path_join base_dir fp) = true
    · rw [if_pos h1]
      exact hO _ (hP _ _ h)
    · rw [if_neg h1]
      exact h

theorem scan_step_spec (ivi : String → Bool) (fs : FS) (base_dir : String)
    (st : St) (ent : String) :
    (scan_step ivi fs base_dir st ent).unexplained_images =
      st.unexplained_images ++
        (if scan_keep ivi fs base_dir ent = true then [path_join base_dir ent] else []) ∧
    (scan_step ivi fs base_dir st ent).originals =
      st.originals ++
        (if (scan_original ent && fs.isFile (path_join base_dir ent)) = true then
          [path_join base_dir ent] else []) ∧
    (scan_step ivi fs base_dir st ent).used_images = st.used_images ∧
    (scan_step ivi fs base_dir st ent).instance_names = st.instance_names ∧
    (scan_step ivi fs base_dir st ent).active_base_files = st.active_base_files ∧
    (scan_step ivi fs base_dir st ent).corrupt_base_files = st.corrupt_base_files ∧
    (scan_step ivi fs base_dir st ent).removable_base_files = st.removable_base_files ∧
    (scan_step ivi fs base_dir st ent).processed = st.processed := by
  by_cases h1 : ent.length = digest_size
  · by_cases hf : fs.isFile (path_join base_dir ent) = true <;>
      simp_all [scan_step, store_image, scan_keep, scan_original]
  · by_cases h2 : digest_size + 2 < ent.length ∧ ent.toList[digest_size]? = some '_' ∧
        ivi (path_join base_dir ent) = false
    · have h22 : ent.data[digest_size]? = some '_' := h2.2.1
      have hd : scan_derived ivi base_dir ent = true := by
        simp [scan_derived, String.toList, h2.1, h22, h2.2.2]
      unfold scan_step
      rw [if_neg h1, if_pos h2]
      by_cases hf : fs.isFile (path_join base_dir ent) = true <;>
        simp [store_image, scan_keep, scan_original, hd, h1, hf]
    · have hd : scan_derived ivi base_dir ent = false := by
        rcases Bool.eq_false_or_eq_true (scan_derived ivi base_dir ent) with hb | hb
        · simp only [scan_derived, Bool.and_eq_true, decide_eq_true_eq,
            Bool.not_eq_true'] at hb
          exact absurd ⟨hb.1.1, hb.1.2, hb.2⟩ h2
        · exact hb
      unfold scan_step
      rw [if_neg h1, if_neg h2]
      simp [scan_keep, scan_original, hd, h1]

theorem scan_fold_spec (ivi : String → Bool) (fs : FS) (base_dir : String) :
    ∀ (entries : List String) (st : St),
      (entries.foldl (scan_step ivi fs base_dir) st).unexplained_images =
        st.unexplained_images ++
          (entries.filter (scan_keep ivi fs base_dir)).map (path_join base_dir) ∧
      (entries.foldl (scan_step ivi fs base_dir) st).originals =
        st.originals ++
          (entries.filter
            (fun ent => scan_original ent && fs.isFile (path_join base_dir ent))).map
            (path_join base_dir) ∧
      (entries.foldl (scan_step ivi fs base_dir) st).used_images = st.used_images ∧
      (entries.foldl (scan_step ivi fs base_dir) st).instance_names = st.instance_names ∧
      (entries.foldl (scan_step ivi fs base_dir) st).active_base_files =
        st.active_base_files ∧
      (entries.foldl (scan_step ivi fs base_dir) st).corrupt_base_files =
        st.corrupt_base_files ∧
      (entries.foldl (scan_step ivi fs base_dir) st).removable_base_files =
        st.removable_base_files ∧
      (entries.foldl (scan_step ivi fs base_dir) st).processed = st.processed := by
  intro entries
  induction entries with
  | nil => simp
  | cons e rest ih =>
      intro st
      obtain ⟨u, o, d, n, a, c, r, p⟩ := ih (scan_step ivi fs base_dir st e)
      obtain ⟨u', o', d', n', a', c', r', p'⟩ := scan_step_spec ivi fs base_dir st e
      refine ⟨?_, ?_, ?_, ?_, ?_, ?_, ?_, ?_⟩ <;>
        simp_all [List.filter_cons] <;> split <;> simp_all

theorem string_append_left_cancel {a x y : String} (h : a ++ x = a ++ y) : x = y := by
  have hd := congrArg String.data h
  simp only [String.data_append] at hd
  have h2 := (List.append_right_inj a.data).mp hd
  cases x with
  | mk dx =>
      cases y with
      | mk dy => exact congrArg String.mk h2

theorem path_join_inj (b : String) {x y : String} (h : path_join b x = path_join b y) :
    x = y :=
  string_append_left_cancel h

/-- A duplicate-free directory listing scans to a duplicate-free
unexplained working set. -/
theorem scanned_nodup (ivi : String → Bool) (fs : FS) (base_dir : String) (st : St)
    (hs : st.unexplained_images = []) (hn : fs.baseDirEntries.Nodup) :
    (list_base_images ivi fs base_dir st).unexplained_images.Nodup := by
  rw [list_base_images, (scan_fold_spec ivi fs base_dir fs.baseDirEntries st).1, hs,
    List.nil_append]
  exact (hn.filter _).map_on (fun x _ y _ h => path_join_inj base_dir h)

/- ### Backing-resolver lemmas -/

theorem backing_step_cases (cfg : Config) (fs : FS) (acc : List String × St)
    (ent : String) :
    backing_step cfg fs acc ent = acc ∨
    ∃ b, b ∈ (backing_step cfg fs acc ent).1 ∧
      (backing_step cfg fs acc ent).1 =
        (if b ∈ acc.1 then acc.1 else acc.1 ++ [b]) ∧
      (backing_step cfg fs acc ent).2 =
        (if b ∈ acc.2.unexplained_images then
          { acc.2 with unexplained_images := acc.2.unexplained_images.erase b }
        else acc.2) := by
  unfold backing_step
  by_cases h1 : ent ∈ acc.2.instance_names
  · rw [if_pos h1]
    by_cases h2 : fs.pathExists (path_join (path_join cfg.instances_path ent) "disk") = true
    · rw [if_pos h2]
      rcases hb : fs.backingFile (path_join (path_join cfg.instances_path ent) "disk")
        with _ | backing
      · exact Or.inl rfl
      · by_cases h3 : backing ≠ ""
        · dsimp only
          rw [if_pos h3]
          refine Or.inr ⟨path_join (path_join cfg.instances_path cfg.base_dir_name)
            backing, ?_, rfl, rfl⟩
          by_cases h4 : path_join (path_join cfg.instances_path cfg.base_dir_name)
              backing ∈ acc.1
          · simpa [h4] using h4
          · simp [h4]
        · dsimp only
          rw [if_neg h3]
          exact Or.inl rfl
    · rw [if_neg h2]
      exact Or.inl rfl
  · rw [if_neg h1]
    exact Or.inl rfl

theorem backing_step_shape (cfg : Config) (fs : FS) (acc : List String × St)
    (ent : String) :
    ∃ u, (backing_step cfg fs acc ent).2 = { acc.2 with unexplained_images := u } := by
  rcases backing_step_cases cfg fs acc ent with h | ⟨b, _, _, h2⟩
  · exact ⟨acc.2.unexplained_images, by rw [h]⟩
  · by_cases hm : b ∈ acc.2.unexplained_images
    · exact ⟨acc.2.unexplained_images.erase b, by rw [h2, if_pos hm]⟩
    · exact ⟨acc.2.unexplained_images, by rw [h2, if_neg hm]⟩

theorem backing_fold_fields (cfg : Config) (fs : FS) (ents : List String)
    (acc0 : List String × St) :
    (ents.foldl (backing_step cfg fs) acc0).2.used_images = acc0.2.used_images ∧
    (ents.foldl (backing_step cfg fs) acc0).2.instance_names = acc0.2.instance_names ∧
    (ents.foldl (backing_step cfg fs) acc0).2.active_base_files =
      acc0.2.active_base_files ∧
    (ents.foldl (backing_step cfg fs) acc0).2.corrupt_base_files =
      acc0.2.corrupt_base_files ∧
    (ents.foldl (backing_step cfg fs) acc0).2.originals = acc0.2.originals ∧
    (ents.foldl (backing_step cfg fs) acc0).2.removable_base_files =
      acc0.2.removable_base_files ∧
    (ents.foldl (backing_step cfg fs) acc0).2.processed = acc0.2.processed := by
  refine foldl_preserve
    (fun b => b.2.used_images = acc0.2.used_images ∧
      b.2.instance_names = acc0.2.instance_names ∧
      b.2.active_base_files = acc0.2.active_base_files ∧
      b.2.corrupt_base_files = acc0.2.corrupt_base_files ∧
      b.2.originals = acc0.2.originals ∧
      b.2.removable_base_files = acc0.2.removable_base_files ∧
      b.2.processed = acc0.2.processed)
    (backing_step cfg fs) ents (fun b x _ hb => ?_) acc0
    ⟨rfl, rfl, rfl, rfl, rfl, rfl, rfl⟩
  obtain ⟨u, hu⟩ := backing_step_shape cfg fs b x
  rw [hu]
  exact hb

theorem backing_step_inuse_mono (cfg : Config) (fs : FS) (acc : List String × St)
    (ent : String) : acc.1 ⊆ (backing_step cfg fs acc ent).1 := by
  rcases backing_step_cases cfg fs acc ent with h | ⟨b, _, h1, _⟩
  · rw [h]
    exact fun q hq => hq
  · rw [h1]
    by_cases hm : b ∈ acc.1
    · rw [if_pos hm]
      exact fun q hq => hq
    · rw [if_neg hm]
      exact fun q hq => List.mem_append_left _ hq


theorem backing_fold_inuse_mono (cfg : Config) (fs : FS) (ents : List String)
    (acc0 : List String × St) :
    acc0.1 ⊆ (ents.foldl (backing_step cfg fs) acc0).1 := by
  refine foldl_preserve (fun b => acc0.1 ⊆ b.1) (backing_step cfg fs) ents
    (fun b x _ hb => ?_) acc0 (fun q hq => hq)
  exact fun q hq => backing_step_inuse_mono cfg fs b x (hb hq)

/-- The backing resolution leaves exactly those files in the working set
that are not among the in-use backing images it finds: an unexplained
file hit via a backing chain is removed from the working set, and
nothing is added. -/
theorem backing_fold_charac (cfg : Config) (fs : FS) :
    ∀ (ents : List String) (acc : List String × St),
      acc.2.unexplained_images.Nodup →
      (∀ p, p ∈ acc.1 → p ∉ acc.2.unexplained_images) →
      ∀ p, p ∈ (ents.foldl (backing_step cfg fs) acc).2.unexplained_images ↔
        (p ∈ acc.2.unexplained_images ∧ p ∉ (ents.foldl (backing_step cfg fs) acc).1) := by
  intro ents
  induction ents with
  | nil =>
      intro acc _ hdis p
      constructor
      · intro hp
        exact ⟨hp, fun hq => hdis p hq hp⟩
      · intro hp
        exact hp.1
  | cons e rest ih =>
      intro acc hnd hdis p
      rw [List.foldl_cons]
      rcases backing_step_cases cfg fs acc e with h | ⟨b, hbmem, h1, h2⟩
      · rw [h]
        exact ih acc hnd hdis p
      · have hnd' : (backing_step cfg fs acc e).2.unexplained_images.Nodup := by
          rw [h2]
          by_cases hm : b ∈ acc.2.unexplained_images
          · rw [if_pos hm]
            exact hnd.erase b
          · rw [if_neg hm]
            exact hnd
        have hdis' : ∀ q, q ∈ (backing_step cfg fs acc e).1 →
            q ∉ (backing_step cfg fs acc e).2.unexplained_images := by
          intro q hq
          rw [h2]
          have hq' : q ∈ acc.1 ∨ q = b := by
            rw [h1] at hq
            by_cases hm : b ∈ acc.1
            · rw [if_pos hm] at hq
              exact Or.inl hq
            · rw [if_neg hm] at hq
              rcases List.mem_append.mp hq with h' | h'
              · exact Or.inl h'
              · exact Or.inr (by simpa using h')
          by_cases hm : b ∈ acc.2.unexplained_images
          · rw [if_pos hm]
            rcases hq' with h' | h'
            · exact fun hc => hdis q h' (List.erase_subset _ _ hc)
            · subst h'
              intro hc
              exact ((hnd.mem_erase_iff).mp hc).1 rfl
          · rw [if_neg hm]
            rcases hq' with h' | h'
            · exact hdis q h'
            · subst h'
              exact hm
        rw [ih _ hnd' hdis' p]
        have hbfin : b ∈ (rest.foldl (backing_step cfg fs) (backing_step cfg fs acc e)).1 :=
          backing_fold_inuse_mono cfg fs rest _ hbmem
        constructor
        · rintro ⟨hp1, hp2⟩
          refine ⟨?_, hp2⟩
          rw [h2] at hp1
          by_cases hm : b ∈ acc.2.unexplained_images
          · rw [if_pos hm] at hp1
            exact List.erase_subset _ _ hp1
          · rwa [if_neg hm] at hp1
        · rintro ⟨hp1, hp2⟩
          have hpb : p ≠ b := fun he => hp2 (he ▸ hbfin)
          refine ⟨?_, hp2⟩
          rw [h2]
          by_cases hm : b ∈ acc.2.unexplained_images
          · rw [if_pos hm]
            exact (hnd.mem_erase_iff).mpr ⟨hpb, hp1⟩
          · rwa [if_neg hm]

/- ### Folding backing hits into the active set (lines 430-432) -/

theorem add_active_fields (st : St) (p : String) :
    (add_active st p).used_images = st.used_images ∧
    (add_active st p).unexplained_images = st.unexplained_images ∧
    (add_active st p).corrupt_base_files = st.corrupt_base_files ∧
    (add_active st p).originals = st.originals ∧
    (add_active st p).removable_base_files = st.removable_base_files ∧
    (add_active st p).processed = st.processed := by
  unfold add_active
  split <;> exact ⟨rfl, rfl, rfl, rfl, rfl, rfl⟩

theorem mem_add_active (st : St) (a q : String) :
    q ∈ (add_active st a).active_base_files ↔
      q ∈ st.active_base_files ∨ q = a := by
  unfold add_active
  by_cases hm : a ∈ st.active_base_files
  · rw [if_pos hm]
    constructor
    · exact Or.inl
    · rintro (h | rfl)
      · exact h
      · exact hm
  · rw [if_neg hm]
    simp

theorem add_active_fold (l : List String) : ∀ (st : St) (q : String),
    (q ∈ (l.foldl add_active st).active_base_files ↔
      q ∈ st.active_base_files ∨ q ∈ l) := by
  induction l with
  | nil => simp
  | cons a rest ih =>
      intro st q
      rw [List.foldl_cons, ih, mem_add_active]
      simp [or_assoc]

theorem add_active_fold_fields (l : List String) (st : St) :
    ((l.foldl add_active st).used_images = st.used_images ∧
    (l.foldl add_active st).unexplained_images = st.unexplained_images ∧
    (l.foldl add_active st).corrupt_base_files = st.corrupt_base_files ∧
    (l.foldl add_active st).originals = st.originals ∧
    (l.foldl add_active st).removable_base_files = st.removable_base_files ∧
    (l.foldl add_active st).processed = st.processed) := by
  refine foldl_preserve
    (fun s => s.used_images = st.used_images ∧
      s.unexplained_images = st.unexplained_images ∧
      s.corrupt_base_files = st.corrupt_base_files ∧
      s.originals = st.originals ∧
      s.removable_base_files = st.removable_base_files ∧
      s.processed = st.processed)
    add_active l (fun b x _ hb => ?_) st ⟨rfl, rfl, rfl, rfl, rfl, rfl⟩
  obtain ⟨f1, f2, f3, f4, f5, f6⟩ := add_active_fields b x
  rw [f1, f2, f3, f4, f5, f6]
  exact hb

theorem handle_inv78 (cfg : Config) (fs : FS) (now : Int) (img_id b : String)
    (scanned : List String) (st : St) (h : Inv78 scanned st) :
    Inv78 scanned (handle_base_image cfg fs now img_id b st) := by
  obtain ⟨hnd, hch, hcp⟩ := h
  refine ⟨?_, ?_, ?_⟩
  · rw [handle_unexplained]
    exact hnd.erase b
  · intro p
    rw [handle_unexplained, handle_processed]
    by_cases hpb : p = b
    · subst hpb
      constructor
      · intro hc
        exact absurd rfl ((hnd.mem_erase_iff).mp hc).1
      · rintro ⟨-, h2⟩
        exact absurd (List.mem_append_right _ (by simp)) h2
    · rw [List.mem_erase_of_ne hpb, hch p]
      constructor
      · rintro ⟨h1, h2⟩
        refine ⟨h1, fun hc => ?_⟩
        rcases List.mem_append.mp hc with h3 | h3
        · exact h2 h3
        · exact hpb (by simpa using h3)
      · rintro ⟨h1, h2⟩
        exact ⟨h1, fun hc => h2 (List.mem_append_left _ hc)⟩
  · intro f hf
    rw [handle_processed]
    rcases handle_corrupt_cases cfg fs now img_id b st with hc | hc <;> rw [hc] at hf
    · exact List.mem_append_left _ (hcp f hf)
    · rcases List.mem_append.mp hf with h1 | h1
      · exact List.mem_append_left _ (hcp f h1)
      · exact List.mem_append_right _ h1

theorem candidate_inv78 (cfg : Config) (fs : FS) (now : Int)
    (sha1hex : String → String) (base_dir : String) (scanned : List String) (st : St)
    (h : Inv78 scanned st) :
    Inv78 scanned (candidate_phase cfg fs now sha1hex base_dir st) := by
  unfold candidate_phase
  refine foldl_preserve (Inv78 scanned) _ _ (fun s kv _ hs => ?_) st h
  exact find_and_handle_preserve cfg fs now base_dir kv.1 (sha1hex kv.1) (Inv78 scanned)
    (fun b s hh => handle_inv78 cfg fs now kv.1 b scanned s hh)
    (fun s hh => hh) s hs

theorem handle_inv10 (cfg : Config) (fs : FS) (now : Int) (img_id b : String)
    (U : List (String × Nat × Nat × List String)) (st : St)
    (hk : ∃ loc rem ins, dict_get U img_id = some (loc, rem, ins) ∧ 0 < loc + rem)
    (h : Inv10 U st) : Inv10 U (handle_base_image cfg fs now img_id b st) := by
  obtain ⟨hu, hr, hpa⟩ := h
  obtain ⟨loc, rem, ins, hget, hsum⟩ := hk
  have hget' : dict_get st.used_images img_id = some (loc, rem, ins) := by
    rw [hu]
    exact hget
  obtain ⟨hact, hrem⟩ := handle_in_use cfg fs now img_id b st loc rem ins hget' hsum
  refine ⟨by rw [handle_used, hu], by rw [hrem, hr], ?_⟩
  intro p hp
  rw [handle_processed] at hp
  rw [hact]
  rcases List.mem_append.mp hp with h1 | h1
  · exact List.mem_append_left _ (hpa p h1)
  · exact List.mem_append_right _ h1

theorem candidate_inv10 (cfg : Config) (fs : FS) (now : Int)
    (sha1hex : String → String) (base_dir : String)
    (U : List (String × Nat × Nat × List String)) (st : St)
    (hn : keys_nodup U) (ho : usage_ok U) (h : Inv10 U st) :
    Inv10 U (candidate_phase cfg fs now sha1hex base_dir st) := by
  unfold candidate_phase
  rw [h.1]
  refine foldl_preserve (Inv10 U) _ U (fun s kv hkv hs => ?_) st h
  have hget : dict_get U kv.1 = some kv.2 := dict_get_of_mem hn (by simpa using hkv)
  have hsum := ho kv.1 kv.2.1 kv.2.2.1 kv.2.2.2 (by simpa using hkv)
  exact find_and_handle_preserve cfg fs now base_dir kv.1 (sha1hex kv.1) (Inv10 U)
    (fun b s hh => handle_inv10 cfg fs now kv.1 b U s
      ⟨kv.2.1, kv.2.2.1, kv.2.2.2, by simpa using hget, by omega⟩ hh)
    (fun s hh => hh) s hs

/- ### Pass-level assembly -/

theorem usage_step_fields (cfg : Config) (i : Inst) (st : St) :
    (usage_step cfg st i).unexplained_images = st.unexplained_images ∧
    (usage_step cfg st i).originals = st.originals ∧
    (usage_step cfg st i).active_base_files = st.active_base_files ∧
    (usage_step cfg st i).corrupt_base_files = st.corrupt_base_files ∧
    (usage_step cfg st i).removable_base_files = st.removable_base_files ∧
    (usage_step cfg st i).processed = st.processed := by
  simp only [usage_step]
  split <;> exact ⟨rfl, rfl, rfl, rfl, rfl, rfl⟩

theorem usage_fold_fields (cfg : Config) (insts : List Inst) (st : St) :
    (list_running_instances cfg st insts).unexplained_images = st.unexplained_images ∧
    (list_running_instances cfg st insts).originals = st.originals ∧
    (list_running_instances cfg st insts).active_base_files = st.active_base_files ∧
    (list_running_instances cfg st insts).corrupt_base_files = st.corrupt_base_files ∧
    (list_running_instances cfg st insts).removable_base_files =
      st.removable_base_files ∧
    (list_running_instances cfg st insts).processed = st.processed := by
  unfold list_running_instances
  refine foldl_preserve
    (fun s => s.unexplained_images = st.unexplained_images ∧
      s.originals = st.originals ∧
      s.active_base_files = st.active_base_files ∧
      s.corrupt_base_files = st.corrupt_base_files ∧
      s.removable_base_files = st.removable_base_files ∧
      s.processed = st.processed)
    (usage_step cfg) insts (fun s i _ hs => ?_)
    { st with used_images := [], instance_names := [] }
    ⟨rfl, rfl, rfl, rfl, rfl, rfl⟩
  obtain ⟨f1, f2, f3, f4, f5, f6⟩ := usage_step_fields cfg i s
  rw [f1, f2, f3, f4, f5, f6]
  exact hs

/-- When the base directory exists, the pass is the phase chain. -/
theorem verify_eq_of_dir (cfg : Config) (fs : FS) (now : Int)
    (sha1hex : String → String) (ivi : String → Bool) (mgr : St) (insts : List Inst)
    (hdir : fs.pathExists (pass_base_dir cfg) = true) :
    verify_base_images cfg fs now sha1hex ivi mgr insts =
      pass_body cfg fs now sha1hex ivi insts := by
  unfold verify_base_images
  rw [if_neg (by simp [hdir])]

/-- When the base directory is missing, the pass does nothing. -/
theorem verify_eq_of_no_dir (cfg : Config) (fs : FS) (now : Int)
    (sha1hex : String → String) (ivi : String → Bool) (mgr : St) (insts : List Inst)
    (hdir : ¬ fs.pathExists (pass_base_dir cfg) = true) :
    verify_base_images cfg fs now sha1hex ivi mgr insts =
      ⟨reset_state, [], [], [], false⟩ := by
  unfold verify_base_images
  rw [if_pos (by simp [Bool.not_eq_true] at hdir; exact hdir)]

theorem list_base_images_spec (ivi : String → Bool) (fs : FS) (base_dir : String)
    (st : St) :
    (list_base_images ivi fs base_dir st).unexplained_images =
      st.unexplained_images ++
        (fs.baseDirEntries.filter (scan_keep ivi fs base_dir)).map (path_join base_dir) ∧
    (list_base_images ivi fs base_dir st).originals =
      st.originals ++
        (fs.baseDirEntries.filter
          (fun ent => scan_original ent && fs.isFile (path_join base_dir ent))).map
          (path_join base_dir) ∧
    (list_base_images ivi fs base_dir st).used_images = st.used_images ∧
    (list_base_images ivi fs base_dir st).instance_names = st.instance_names ∧
    (list_base_images ivi fs base_dir st).active_base_files = st.active_base_files ∧
    (list_base_images ivi fs base_dir st).corrupt_base_files = st.corrupt_base_files ∧
    (list_base_images ivi fs base_dir st).removable_base_files =
      st.removable_base_files ∧
    (list_base_images ivi fs base_dir st).processed = st.processed :=
  scan_fold_spec ivi fs base_dir fs.baseDirEntries st

theorem list_backing_fields (cfg : Config) (fs : FS) (st : St) :
    (list_backing_images cfg fs st).2.used_images = st.used_images ∧
    (list_backing_images cfg fs st).2.instance_names = st.instance_names ∧
    (list_backing_images cfg fs st).2.active_base_files = st.active_base_files ∧
    (list_backing_images cfg fs st).2.corrupt_base_files = st.corrupt_base_files ∧
    (list_backing_images cfg fs st).2.originals = st.originals ∧
    (list_backing_images cfg fs st).2.removable_base_files =
      st.removable_base_files ∧
    (list_backing_images cfg fs st).2.processed = st.processed :=
  backing_fold_fields cfg fs fs.instDirEntries ([], st)

theorem list_backing_charac (cfg : Config) (fs : FS) (st : St)
    (hnd : st.unexplained_images.Nodup) :
    ∀ p, p ∈ (list_backing_images cfg fs st).2.unexplained_images ↔
      (p ∈ st.unexplained_images ∧ p ∉ (list_backing_images cfg fs st).1) :=
  backing_fold_charac cfg fs fs.instDirEntries ([], st) hnd (by simp)

/- ### Facts about the phase chain -/

theorem pass_scan_nodup (cfg : Config) (fs : FS) (ivi : String → Bool)
    (hn : fs.baseDirEntries.Nodup) :
    (pass_scan cfg fs ivi).unexplained_images.Nodup :=
  scanned_nodup ivi fs (pass_base_dir cfg) reset_state rfl hn

theorem pass_usage_inv78 (cfg : Config) (fs : FS) (ivi : String → Bool)
    (insts : List Inst) (hn : fs.baseDirEntries.Nodup) :
    Inv78 (pass_scan cfg fs ivi).unexplained_images (pass_usage cfg fs ivi insts) := by
  obtain ⟨fu, fo, fa, fc, fr, fp⟩ := usage_fold_fields cfg insts (pass_scan cfg fs ivi)
  have hsp : (pass_scan cfg fs ivi).processed = [] :=
    (list_base_images_spec ivi fs (pass_base_dir cfg) reset_state).2.2.2.2.2.2.2
  have hsc : (pass_scan cfg fs ivi).corrupt_base_files = [] :=
    (list_base_images_spec ivi fs (pass_base_dir cfg) reset_state).2.2.2.2.2.1
  refine ⟨?_, ?_, ?_⟩
  · show (pass_usage cfg fs ivi insts).unexplained_images.Nodup
    unfold pass_usage
    rw [fu]
    exact pass_scan_nodup cfg fs ivi hn
  · intro p
    unfold pass_usage
    rw [fu, fp, hsp]
    simp
  · intro f hf
    unfold pass_usage at hf
    rw [fc, hsc] at hf
    simp at hf

theorem pass_candidates_inv78 (cfg : Config) (fs : FS) (now : Int)
    (sha1hex : String → String) (ivi : String → Bool) (insts : List Inst)
    (hn : fs.baseDirEntries.Nodup) :
    Inv78 (pass_scan cfg fs ivi).unexplained_images
      (pass_candidates cfg fs now sha1hex ivi insts) :=
  candidate_inv78 cfg fs now sha1hex (pass_base_dir cfg)
    (pass_scan cfg fs ivi).unexplained_images (pass_usage cfg fs ivi insts)
    (pass_usage_inv78 cfg fs ivi insts hn)

theorem pass_candidates_inv10 (cfg : Config) (fs : FS) (now : Int)
    (sha1hex : String → String) (ivi : String → Bool) (insts : List Inst) :
    Inv10 (pass_usage cfg fs ivi insts).used_images
      (pass_candidates cfg fs now sha1hex ivi insts) := by
  obtain ⟨fu, fo, fa, fc, fr, fp⟩ := usage_fold_fields cfg insts (pass_scan cfg fs ivi)
  have hsr : (pass_scan cfg fs ivi).removable_base_files = [] :=
    (list_base_images_spec ivi fs (pass_base_dir cfg) reset_state).2.2.2.2.2.2.1
  have hsp : (pass_scan cfg fs ivi).processed = [] :=
    (list_base_images_spec ivi fs (pass_base_dir cfg) reset_state).2.2.2.2.2.2.2
  refine candidate_inv10 cfg fs now sha1hex (pass_base_dir cfg) _ _
    (running_keys_nodup cfg (pass_scan cfg fs ivi) insts)
    (running_usage_ok cfg (pass_scan cfg fs ivi) insts) ⟨rfl, ?_, ?_⟩
  · show (pass_usage cfg fs ivi insts).removable_base_files = []
    unfold pass_usage
    rw [fr, hsr]
  · intro p hp
    exfalso
    have : (pass_usage cfg fs ivi insts).processed = [] := by
      unfold pass_usage
      rw [fp, hsp]
    rw [this] at hp
    simp at hp

theorem pass_active_fields (cfg : Config) (fs : FS) (now : Int)
    (sha1hex : String → String) (ivi : String → Bool) (insts : List Inst) :
    (pass_active cfg fs now sha1hex ivi insts).corrupt_base_files =
      (pass_candidates cfg fs now sha1hex ivi insts).corrupt_base_files ∧
    (pass_active cfg fs now sha1hex ivi insts).removable_base_files =
      (pass_candidates cfg fs now sha1hex ivi insts).removable_base_files ∧
    (pass_active cfg fs now sha1hex ivi insts).processed =
      (pass_candidates cfg fs now sha1hex ivi insts).processed ∧
    (pass_active cfg fs now sha1hex ivi insts).originals =
      (pass_candidates cfg fs now sha1hex ivi insts).originals ∧
    (pass_active cfg fs now sha1hex ivi insts).unexplained_images =
      (pass_backing cfg fs now sha1hex ivi insts).2.unexplained_images := by
  obtain ⟨b1, b2, b3, b4, b5, b6, b7⟩ :=
    list_backing_fields cfg fs (pass_candidates cfg fs now sha1hex ivi insts)
  obtain ⟨a1, a2, a3, a4, a5, a6⟩ :=
    add_active_fold_fields (pass_backing cfg fs now sha1hex ivi insts).1
      (pass_backing cfg fs now sha1hex ivi insts).2
  exact ⟨a3.trans b4, a5.trans b6, a6.trans b7, a4.trans b5, a2⟩

theorem pass_active_mem (cfg : Config) (fs : FS) (now : Int)
    (sha1hex : String → String) (ivi : String → Bool) (insts : List Inst) (q : String) :
    q ∈ (pass_active cfg fs now sha1hex ivi insts).active_base_files ↔
      (q ∈ (pass_candidates cfg fs now sha1hex ivi insts).active_base_files ∨
       q ∈ (pass_backing cfg fs now sha1hex ivi insts).1) := by
  have hb : (pass_backing cfg fs now sha1hex ivi insts).2.active_base_files =
      (pass_candidates cfg fs now sha1hex ivi insts).active_base_files :=
    (list_backing_fields cfg fs (pass_candidates cfg fs now sha1hex ivi insts)).2.2.1
  rw [pass_active, add_active_fold, hb]

/- ### Claim theorems -/

/-- C4: with checksumming enabled, a stored digest record that has a
digest but no timestamp is rewritten using the stored digest value
together with a current timestamp — the written record's digest is `d`
itself, for every filesystem, so the file's digest is not recomputed to
produce it — and verification still computes a fresh digest of the file,
returning ok on equality with the stored digest and failed on
inequality. -/
theorem C4_legacy_record_rewrite (cfg : Config) (fs : FS) (now : Int) (p d : String)
    (hc : cfg.checksum_base_images = true)
    (hr : fs.sidecar p = some ⟨d, none⟩) :
    verify_checksum cfg fs now p true =
      ⟨some (decide (fs.fileHash p = d)), [(p, ⟨d, some now⟩)], true⟩ := by
  by_cases he : fs.fileHash p = d <;>
    simp [verify_checksum, hr, hc, he]

/-- C5: with checksumming enabled and a stored record carrying digest
`d` and timestamp `T`, a verification strictly before
`T + checksum_interval_seconds` returns ok without recomputing the
file's digest, and a verification at or after that bound recomputes the
digest and returns ok exactly when it equals the stored digest. -/
theorem C5_checksum_ttl (cfg : Config) (fs : FS) (now : Int) (p d : String) (T : Int)
    (hc : cfg.checksum_base_images = true)
    (hr : fs.sidecar p = some ⟨d, some T⟩) :
    (now < T + cfg.checksum_interval_seconds →
      verify_checksum cfg fs now p true = ⟨some true, [], false⟩) ∧
    (T + cfg.checksum_interval_seconds ≤ now →
      verify_checksum cfg fs now p true =
        ⟨some (decide (fs.fileHash p = d)), [], true⟩) := by
  constructor
  · intro hlt
    simp only [verify_checksum, hr, hc]
    rw [if_neg (by simp), if_pos (by omega)]
  · intro hge
    simp only [verify_checksum, hr, hc]
    rw [if_neg (by simp), if_neg (by omega)]
    by_cases he : fs.fileHash p = d <;> simp [he]

/-- C6: an existing unused base file is deemed eligible for removal
exactly when its age `now - mtime` is at least the applicable threshold:
the original minimum age when the file is recorded in `originals`, the
resized minimum age otherwise. -/
theorem C6_age_threshold (cfg : Config) (fs : FS) (now : Int) (origs : List String)
    (bf : String) (hex : fs.pathExists bf = true) :
    (remove_base_file cfg fs now origs bf = true ↔
      (if bf ∈ origs then cfg.remove_unused_original_minimum_age_seconds
       else cfg.remove_unused_resized_minimum_age_seconds) ≤ now - fs.mtime bf) := by
  unfold remove_base_file
  rw [if_neg (by simp [hex])]
  by_cases hm : bf ∈ origs
  · simp only [if_pos hm]
    by_cases hage : now - fs.mtime bf < cfg.remove_unused_original_minimum_age_seconds <;>
      simp [hage] <;> omega
  · simp only [if_neg hm]
    by_cases hage : now - fs.mtime bf < cfg.remove_unused_resized_minimum_age_seconds <;>
      simp [hage] <;> omega

/-- C9: a second reconciliation pass run from the manager state the
first pass leaves behind, over the same filesystem snapshot, instance
snapshot and clock (unchanged directory contents), produces identical
active, corrupt, removable and originals sets and deletes exactly the
same files: `_reset_state` discards every per-pass field, so the pass
depends only on its inputs. -/
theorem C9_idempotent_pass (cfg : Config) (fs : FS) (now : Int)
    (sha1hex : String → String) (ivi : String → Bool) (insts : List Inst) :
    (verify_base_images cfg fs now sha1hex ivi
        (verify_base_images cfg fs now sha1hex ivi reset_state insts).st
        insts).st.active_base_files =
      (verify_base_images cfg fs now sha1hex ivi reset_state
        insts).st.active_base_files ∧
    (verify_base_images cfg fs now sha1hex ivi
        (verify_base_images cfg fs now sha1hex ivi reset_state insts).st
        insts).st.corrupt_base_files =
      (verify_base_images cfg fs now sha1hex ivi reset_state
        insts).st.corrupt_base_files ∧
    (verify_base_images cfg fs now sha1hex ivi
        (verify_base_images cfg fs now sha1hex ivi reset_state insts).st
        insts).st.removable_base_files =
      (verify_base_images cfg fs now sha1hex ivi reset_state
        insts).st.removable_base_files ∧
    (verify_base_images cfg fs now sha1hex ivi
        (verify_base_images cfg fs now sha1hex ivi reset_state insts).st
        insts).st.originals =
      (verify_base_images cfg fs now sha1hex ivi reset_state insts).st.originals ∧
    (verify_base_images cfg fs now sha1hex ivi
        (verify_base_images cfg fs now sha1hex ivi reset_state insts).st
        insts).deleted =
      (verify_base_images cfg fs now sha1hex ivi reset_state insts).deleted :=
  ⟨rfl, rfl, rfl, rfl, rfl⟩

/-- C2 (amended): the scanner classifies an entry as an original
candidate exactly when its name length equals the digest length, and as
a derived-image candidate exactly when its name is longer than
digest-length + 2 (not digest-length + 1 as the claim put it), has the
separator at the digest-length position, and is not a valid info file;
the scan populates the unexplained working set with exactly the
classified entries that are regular files (originals also recorded in
the originals list) and touches nothing else. -/
theorem C2_scan_classification (ivi : String → Bool) (fs : FS) (base_dir : String) :
    (∀ ent, scan_original ent = true ↔ ent.length = digest_size) ∧
    (∀ ent, scan_derived ivi base_dir ent = true ↔
      (digest_size + 2 < ent.length ∧ ent.toList[digest_size]? = some '_' ∧
        ivi (path_join base_dir ent) = false)) ∧
    (list_base_images ivi fs base_dir reset_state).unexplained_images =
      (fs.baseDirEntries.filter (scan_keep ivi fs base_dir)).map (path_join base_dir) ∧
    (list_base_images ivi fs base_dir reset_state).originals =
      (fs.baseDirEntries.filter
        (fun ent => scan_original ent && fs.isFile (path_join base_dir ent))).map
        (path_join base_dir) ∧
    (list_base_images ivi fs base_dir reset_state).used_images = [] ∧
    (list_base_images ivi fs base_dir reset_state).active_base_files = [] ∧
    (list_base_images ivi fs base_dir reset_state).corrupt_base_files = [] ∧
    (list_base_images ivi fs base_dir reset_state).removable_base_files = [] := by
  obtain ⟨hu, ho, hd, hn, ha, hc, hr, hp⟩ :=
    scan_fold_spec ivi fs base_dir fs.baseDirEntries reset_state
  refine ⟨?_, ?_, ?_, ?_, ?_, ?_, ?_, ?_⟩
  · intro ent
    simp [scan_original]
  · intro ent
    simp [scan_derived, Bool.and_assoc, and_assoc, String.toList]
  · rw [list_base_images, hu]
    rfl
  · rw [list_base_images, ho]
    rfl
  · rw [list_base_images, hd]
    rfl
  · rw [list_base_images, ha]
    rfl
  · rw [list_base_images, hc]
    rfl
  · rw [list_base_images, hr]
    rfl

/-- C3 (amended): a name is in the expected-names set exactly when some
instance of the snapshot contributes it — its own name always, and the
`name ++ "_resize"` shadow exactly when its task state is one of
resize_prep, resize_migrating, resize_migrated or resize_finish, or its
vm_state is resized. -/
theorem C3_expected_names (cfg : Config) (st : St) (insts : List Inst) (s : String) :
    s ∈ (list_running_instances cfg st insts).instance_names ↔
      ∃ i ∈ insts, s = i.name ∨ (s = i.name ++ "_resize" ∧
        (in_resize_states i.task_state = true ∨ i.vm_state = RESIZED)) := by
  simpa [contributes] using mem_instance_names cfg st insts s

/-- C10: every usage entry satisfies local + remote = number of listed
instance names, with at least one of the two counters incremented per
instance; consequently in a full pass every candidate handled for a used
image identifier is classified active, and the not-in-use branch of the
per-file handling never fires — the removable set is exactly the
leftover unexplained set. -/
theorem C10_usage_counts_active (cfg : Config) (fs : FS) (now : Int)
    (sha1hex : String → String) (ivi : String → Bool) (mgr : St) (insts : List Inst) :
    (∀ k loc rem ins,
      (k, loc, rem, ins) ∈ (list_running_instances cfg reset_state insts).used_images →
        loc + rem = ins.length ∧ 1 ≤ loc + rem) ∧
    (verify_base_images cfg fs now sha1hex ivi mgr insts).st.removable_base_files =
      (verify_base_images cfg fs now sha1hex ivi mgr insts).st.unexplained_images ∧
    (∀ p, p ∈ (verify_base_images cfg fs now sha1hex ivi mgr insts).st.processed →
      p ∈ (verify_base_images cfg fs now sha1hex ivi mgr insts).st.active_base_files) := by
  refine ⟨fun k loc rem ins hm =>
    running_usage_ok cfg reset_state insts k loc rem ins hm, ?_⟩
  by_cases hdir : fs.pathExists (pass_base_dir cfg) = true
  · rw [verify_eq_of_dir cfg fs now sha1hex ivi mgr insts hdir]
    have hinv := pass_candidates_inv10 cfg fs now sha1hex ivi insts
    obtain ⟨pc, pr, pp, po, pu⟩ := pass_active_fields cfg fs now sha1hex ivi insts
    have hrem : (pass_active cfg fs now sha1hex ivi insts).removable_base_files = [] :=
      pr.trans hinv.2.1
    constructor
    · show (pass_final cfg fs now sha1hex ivi insts).removable_base_files =
        (pass_final cfg fs now sha1hex ivi insts).unexplained_images
      unfold pass_final
      rw [hrem]
      rfl
    · intro p hp
      have hp3 : p ∈ (pass_candidates cfg fs now sha1hex ivi insts).processed := by
        have : (pass_final cfg fs now sha1hex ivi insts).processed =
            (pass_candidates cfg fs now sha1hex ivi insts).processed := pp
        rwa [show (pass_body cfg fs now sha1hex ivi insts).st =
          pass_final cfg fs now sha1hex ivi insts from rfl, this] at hp
      have ha3 := hinv.2.2 p hp3
      show p ∈ (pass_final cfg fs now sha1hex ivi insts).active_base_files
      have : (pass_final cfg fs now sha1hex ivi insts).active_base_files =
          (pass_active cfg fs now sha1hex ivi insts).active_base_files := rfl
      rw [this, pass_active_mem]
      exact Or.inl ha3
  · rw [verify_eq_of_no_dir cfg fs now sha1hex ivi mgr insts hdir]
    exact ⟨rfl, by intro p hp; simp [reset_state] at hp⟩

/-- C7: a base file flagged corrupt during a pass is never deleted by
that same pass: corrupt flagging happens only for handled (hence in-use,
hence active) candidates, which leave the unexplained set for good, while
the reclamation step only deletes removable files, which are exactly the
leftover unexplained ones. -/
theorem C7_corrupt_not_deleted (cfg : Config) (fs : FS) (now : Int)
    (sha1hex : String → String) (ivi : String → Bool) (mgr : St) (insts : List Inst)
    (hn : fs.baseDirEntries.Nodup) (f : String)
    (hf : f ∈ (verify_base_images cfg fs now sha1hex ivi mgr insts).st.corrupt_base_files) :
    f ∉ (verify_base_images cfg fs now sha1hex ivi mgr insts).deleted := by
  by_cases hdir : fs.pathExists (pass_base_dir cfg) = true
  · rw [verify_eq_of_dir cfg fs now sha1hex ivi mgr insts hdir] at hf ⊢
    obtain ⟨pc, pr, pp, po, pu⟩ := pass_active_fields cfg fs now sha1hex ivi insts
    have hinv78 := pass_candidates_inv78 cfg fs now sha1hex ivi insts hn
    have hinv10 := pass_candidates_inv10 cfg fs now sha1hex ivi insts
    -- the corrupt file was handled during the candidate loop
    have hf3 : f ∈ (pass_candidates cfg fs now sha1hex ivi insts).corrupt_base_files := by
      have : (pass_body cfg fs now sha1hex ivi insts).st.corrupt_base_files =
          (pass_candidates cfg fs now sha1hex ivi insts).corrupt_base_files := pc
      rwa [this] at hf
    have hfp : f ∈ (pass_candidates cfg fs now sha1hex ivi insts).processed :=
      hinv78.2.2 f hf3
    -- deleted files are leftover unexplained ones
    intro hdel
    have hdel5 : f ∈ (pass_final cfg fs now sha1hex ivi insts).removable_base_files := by
      have : (pass_body cfg fs now sha1hex ivi insts).deleted =
          pass_deleted cfg fs now sha1hex ivi insts := rfl
      rw [this] at hdel
      unfold pass_deleted at hdel
      split at hdel
      · exact List.mem_of_mem_filter hdel
      · simp at hdel
    have hrem : (pass_active cfg fs now sha1hex ivi insts).removable_base_files = [] :=
      pr.trans hinv10.2.1
    have hdel4 : f ∈ (pass_backing cfg fs now sha1hex ivi insts).2.unexplained_images := by
      have : (pass_final cfg fs now sha1hex ivi insts).removable_base_files =
          (pass_active cfg fs now sha1hex ivi insts).removable_base_files ++
            (pass_active cfg fs now sha1hex ivi insts).unexplained_images := rfl
      rw [this, hrem, List.nil_append, pu] at hdel5
      exact hdel5
    have hdel3 : f ∈ (pass_candidates cfg fs now sha1hex ivi insts).unexplained_images :=
      ((list_backing_charac cfg fs (pass_candidates cfg fs now sha1hex ivi insts)
        hinv78.1 f).mp hdel4).1
    exact ((hinv78.2.1 f).mp hdel3).2 hfp
  · rw [verify_eq_of_no_dir cfg fs now sha1hex ivi mgr insts hdir] at hf
    simp [reset_state] at hf

/-- C8: a scanned base file ends in the removable set exactly when it
was neither handled as a candidate for a used image identifier nor found
among the in-use backing images, and every in-use backing image is
classified active. -/
theorem C8_removable_iff_unmatched (cfg : Config) (fs : FS) (now : Int)
    (sha1hex : String → String) (ivi : String → Bool) (mgr : St) (insts : List Inst)
    (hn : fs.baseDirEntries.Nodup) (p : String)
    (hp : p ∈ (verify_base_images cfg fs now sha1hex ivi mgr insts).scanned_unexplained) :
    ((p ∈ (verify_base_images cfg fs now sha1hex ivi mgr insts).st.removable_base_files ↔
      (p ∉ (verify_base_images cfg fs now sha1hex ivi mgr insts).st.processed ∧
       p ∉ (verify_base_images cfg fs now sha1hex ivi mgr insts).inuse_backing_images)) ∧
     (∀ q, q ∈ (verify_base_images cfg fs now sha1hex ivi mgr insts).inuse_backing_images →
       q ∈ (verify_base_images cfg fs now sha1hex ivi mgr insts).st.active_base_files)) := by
  by_cases hdir : fs.pathExists (pass_base_dir cfg) = true
  · rw [verify_eq_of_dir cfg fs now sha1hex ivi mgr insts hdir] at hp ⊢
    obtain ⟨pc, pr, pp, po, pu⟩ := pass_active_fields cfg fs now sha1hex ivi insts
    have hinv78 := pass_candidates_inv78 cfg fs now sha1hex ivi insts hn
    have hinv10 := pass_candidates_inv10 cfg fs now sha1hex ivi insts
    have hrem : (pass_active cfg fs now sha1hex ivi insts).removable_base_files = [] :=
      pr.trans hinv10.2.1
    have hrem5 : (pass_body cfg fs now sha1hex ivi insts).st.removable_base_files =
        (pass_backing cfg fs now sha1hex ivi insts).2.unexplained_images := by
      have : (pass_final cfg fs now sha1hex ivi insts).removable_base_files =
          (pass_active cfg fs now sha1hex ivi insts).removable_base_files ++
            (pass_active cfg fs now sha1hex ivi insts).unexplained_images := rfl
      rw [show (pass_body cfg fs now sha1hex ivi insts).st =
        pass_final cfg fs now sha1hex ivi insts from rfl, this, hrem, List.nil_append, pu]
    have hp1 : p ∈ (pass_scan cfg fs ivi).unexplained_images := hp
    have hpb : pass_backing cfg fs now sha1hex ivi insts =
        list_backing_images cfg fs (pass_candidates cfg fs now sha1hex ivi insts) := rfl
    constructor
    · rw [hrem5, hpb,
        list_backing_charac cfg fs (pass_candidates cfg fs now sha1hex ivi insts)
          hinv78.1 p,
        hinv78.2.1 p,
        show (pass_body cfg fs now sha1hex ivi insts).st.processed =
          (pass_candidates cfg fs now sha1hex ivi insts).processed from pp]
      constructor
      · rintro ⟨⟨-, hnp⟩, hnb⟩
        exact ⟨hnp, hnb⟩
      · rintro ⟨hnp, hnb⟩
        exact ⟨⟨hp1, hnp⟩, hnb⟩
    · intro q hq
      show q ∈ (pass_final cfg fs now sha1hex ivi insts).active_base_files
      have : (pass_final cfg fs now sha1hex ivi insts).active_base_files =
          (pass_active cfg fs now sha1hex ivi insts).active_base_files := rfl
      rw [this, pass_active_mem]
      exact Or.inr hq
  · rw [verify_eq_of_no_dir cfg fs now sha1hex ivi mgr insts hdir] at hp
    simp at hp

/- ### C1: the failing input -/

/-- C1: with two resized variants `<F>_10` and `<F>_20` of the in-use
fingerprint in the unexplained working set, the pass scans both, but
handles only the first: removing `<F>_10` from `unexplained_images`
while `_find_base_file` iterates over that same list makes the iterator
skip `<F>_20`, which matches the resize pattern yet is never yielded; it
falls into the removable set and the reclamation step deletes it even
though it belongs to an image that is in use. -/
theorem C1_second_variant_skipped :
    (verify_base_images cfg_main fsC1 7200 (fun _ => fp40) (fun _ => false) reset_state
        [instT]).scanned_unexplained =
      [path_join "ip/bb" (fp40 ++ "_10"), path_join "ip/bb" (fp40 ++ "_20")] ∧
    resize_match fp40 (path_join "ip/bb" (fp40 ++ "_20")) = true ∧
    ("img", 1, 0, ["i1"]) ∈
      (verify_base_images cfg_main fsC1 7200 (fun _ => fp40) (fun _ => false) reset_state
        [instT]).st.used_images ∧
    (verify_base_images cfg_main fsC1 7200 (fun _ => fp40) (fun _ => false) reset_state
        [instT]).st.processed = [path_join "ip/bb" (fp40 ++ "_10")] ∧
    (verify_base_images cfg_main fsC1 7200 (fun _ => fp40) (fun _ => false) reset_state
        [instT]).st.active_base_files = [path_join "ip/bb" (fp40 ++ "_10")] ∧
    (verify_base_images cfg_main fsC1 7200 (fun _ => fp40) (fun _ => false) reset_state
        [instT]).st.removable_base_files = [path_join "ip/bb" (fp40 ++ "_20")] ∧
    (verify_base_images cfg_main fsC1 7200 (fun _ => fp40) (fun _ => false) reset_state
        [instT]).deleted = [path_join "ip/bb" (fp40 ++ "_20")] := by
  decide

/- ### Counterexamples -/

/-- C2 counterexample: an entry of length digest-length + 2 with the
separator at the digest position and not a valid info file is ignored by
the scan (the code requires length strictly greater than
digest-length + 2), contradicting the claim's "longer than
digest-length + 1". -/
theorem C2_counterexample :
    entC2.length = digest_size + 2 ∧
    entC2.toList[digest_size]? = some '_' ∧
    (fun (_ : String) => false) (path_join "b" entC2) = false ∧
    fsC2.isFile (path_join "b" entC2) = true ∧
    (list_base_images (fun _ => false) fsC2 "b" reset_state).unexplained_images = [] := by
  decide

/-- C3 counterexample: an instance whose task state is `resize_finish` —
none of the three states the claim lists, and not vm_state resized —
still contributes the `_resize` shadow name. -/
theorem C3_counterexample :
    "i1_resize" ∈ (list_running_instances cfg_main reset_state [instC3]).instance_names ∧
    instC3.task_state ≠ some RESIZE_PREP ∧
    instC3.task_state ≠ some RESIZE_MIGRATING ∧
    instC3.task_state ≠ some RESIZE_MIGRATED ∧
    instC3.vm_state ≠ RESIZED := by
  decide

/- ### Witnesses -/

/-- C4 witness: at a concrete legacy record the rewrite stores the old
digest with the fresh timestamp and the verification still re-hashes and
fails on the mismatch. -/
theorem C4_witness :
    cfg_ck.checksum_base_images = true ∧ fsC4.sidecar "f" = some ⟨"d", none⟩ ∧
    verify_checksum cfg_ck fsC4 5 "f" true =
      ⟨some false, [("f", ⟨"d", some 5⟩)], true⟩ := by
  refine ⟨rfl, rfl, ?_⟩
  have h := C4_legacy_record_rewrite cfg_ck fsC4 5 "f" "d" rfl rfl
  simpa using h

/-- C5 witness: one second before the interval elapses the record
short-circuits to ok without hashing; at the interval it re-hashes. -/
theorem C5_witness :
    verify_checksum cfg_ck fsC5 3699 "f" true = ⟨some true, [], false⟩ ∧
    verify_checksum cfg_ck fsC5 3700 "f" true = ⟨some true, [], true⟩ := by
  constructor
  · exact (C5_checksum_ttl cfg_ck fsC5 3699 "f" "h" 100 rfl rfl).1 (by decide)
  · have h := (C5_checksum_ttl cfg_ck fsC5 3700 "f" "h" 100 rfl rfl).2 (by decide)
    simpa using h

/-- C6 witness: an unused resized file aged threshold − 1 is retained,
and at the threshold it is removed. -/
theorem C6_witness :
    remove_base_file cfg_main fs_base 3599 [] "f" = false ∧
    remove_base_file cfg_main fs_base 3600 [] "f" = true := by
  constructor
  · have hiff := C6_age_threshold cfg_main fs_base 3599 [] "f" rfl
    have hne : ¬ remove_base_file cfg_main fs_base 3599 [] "f" = true := by
      intro hc
      have h2 := hiff.mp hc
      revert h2
      decide
    simpa using hne
  · exact (C6_age_threshold cfg_main fs_base 3600 [] "f" rfl).mpr (by decide)

/-- C7 witness: the corrupt in-use original is flagged but survives the
reclamation step of the same pass. -/
theorem C7_witness :
    fsC7.baseDirEntries.Nodup ∧
    path_join "ip/bb" fp40 ∈
      (verify_base_images cfg_ck fsC7 7200 (fun _ => fp40) (fun _ => false) reset_state
        [instT]).st.corrupt_base_files ∧
    path_join "ip/bb" fp40 ∉
      (verify_base_images cfg_ck fsC7 7200 (fun _ => fp40) (fun _ => false) reset_state
        [instT]).deleted :=
  ⟨by decide, by decide,
   C7_corrupt_not_deleted cfg_ck fsC7 7200 (fun _ => fp40) (fun _ => false) reset_state
     [instT] (by decide) _ (by decide)⟩

/-- C8 witness: the unknown derived-shaped file is removable exactly
because it was neither matched nor backing-referenced, and the
backing-rescued file is active. -/
theorem C8_witness :
    fsC8.baseDirEntries.Nodup ∧
    path_join "ip/bb" unkC8 ∈
      (verify_base_images cfg_main fsC8 0 (fun _ => fp40) (fun _ => false) reset_state
        [instT]).scanned_unexplained ∧
    ((path_join "ip/bb" unkC8 ∈
        (verify_base_images cfg_main fsC8 0 (fun _ => fp40) (fun _ => false) reset_state
          [instT]).st.removable_base_files ↔
      (path_join "ip/bb" unkC8 ∉
        (verify_base_images cfg_main fsC8 0 (fun _ => fp40) (fun _ => false) reset_state
          [instT]).st.processed ∧
       path_join "ip/bb" unkC8 ∉
        (verify_base_images cfg_main fsC8 0 (fun _ => fp40) (fun _ => false) reset_state
          [instT]).inuse_backing_images)) ∧
     (∀ q, q ∈ (verify_base_images cfg_main fsC8 0 (fun _ => fp40) (fun _ => false)
          reset_state [instT]).inuse_backing_images →
       q ∈ (verify_base_images cfg_main fsC8 0 (fun _ => fp40) (fun _ => false)
          reset_state [instT]).st.active_base_files)) :=
  ⟨by decide, by decide,
   C8_removable_iff_unmatched cfg_main fsC8 0 (fun _ => fp40) (fun _ => false)
     reset_state [instT] (by decide) _ (by decide)⟩

/-- C10 witness: the usage entry of `img` counts one local user for its
one instance, and the matched original is processed and active. -/
theorem C10_witness :
    (("img", 1, 0, ["i1"]) ∈
      (list_running_instances cfg_main reset_state [instT]).used_images ∧
     1 + 0 = (["i1"] : List String).length ∧ 1 ≤ 1 + 0) ∧
    path_join "ip/bb" fp40 ∈
      (verify_base_images cfg_main fsC10 0 (fun _ => fp40) (fun _ => false) reset_state
        [instT]).st.processed ∧
    path_join "ip/bb" fp40 ∈
      (verify_base_images cfg_main fsC10 0 (fun _ => fp40) (fun _ => false) reset_state
        [instT]).st.active_base_files :=
  ⟨⟨by decide,
    (C10_usage_counts_active cfg_main fsC10 0 (fun _ => fp40) (fun _ => false)
      reset_state [instT]).1 "img" 1 0 ["i1"] (by decide)⟩,
   by decide,
   (C10_usage_counts_active cfg_main fsC10 0 (fun _ => fp40) (fun _ => false)
     reset_state [instT]).2.2 _ (by decide)⟩

end Nova
